import Mathlib

/-!
Verification of libigvt's display-attach protocol and EDID sanitization
engine, shallowly embedded from `src/igvt.c` / `src/igvt.h`.

The EDID buffer (`unsigned char *edid` in C) is modelled as a total byte
memory `Nat → Nat`; every store goes through `% 256`, mirroring the
`unsigned char` assignment semantics of the source.  The sysfs control
channel is modelled as a static environment `Env` (which attributes can be
opened for writing, whether the per-VM directory exists, and the textual
content of each `connection` attribute), and each protocol operation
returns its C `int` result together with the list of control-channel
writes it performed, in order.
-/

namespace Igvt

/-- Linux errno constant `EINVAL` (22). -/
def EINVAL : Int := 22

/-- Linux errno constant `ENODEV` (19). -/
def ENODEV : Int := 19

/-- `write_edid_byte` from `src/igvt.c` (lines 330-339): add the old byte
value to the checksum byte at offset `0x7f`, store the new value, then
subtract the freshly stored value from the checksum byte.  All byte stores
are reduced `% 256` as in C `unsigned char` arithmetic; the subtraction
`edid[0x7f] -= edid[byte]` becomes `(chk + 256 - v) % 256`, which is the
two's-complement-free rendering of unsigned byte subtraction (the
subtrahend is a freshly stored byte, hence `< 256`). -/
def write_edid_byte (edid : Nat → Nat) (byte : Nat) (value : Nat) : Nat → Nat :=
  let e1 := Function.update edid 0x7f ((edid 0x7f + edid byte) % 256)
  let e2 := Function.update e1 byte (value % 256)
  Function.update e2 0x7f ((e2 0x7f + 256 - e2 byte) % 256)

/-- The digital/analog reconciliation step of `_filter_edid`
(`src/igvt.c` lines 358-368).  The formal parameter is named
`analog_port` exactly as in the source; note that the only caller,
`igvt_plug_display`, passes `is_port_digital(vgt_port)` for it. -/
def edid_reconcile (edid : Nat → Nat) (analog_port : Bool) : Nat → Nat :=
  if analog_port ∧ edid 20 &&& 0x80 ≠ 0 then
    let e := write_edid_byte edid 20 0x00
    write_edid_byte e 24 ((e 24 &&& 0xE7) ||| 0x08)
  else if (¬ analog_port) ∧ edid 20 &&& 0x80 = 0 then
    let e := write_edid_byte edid 20 0x80
    write_edid_byte e 24 (e 24 &&& 0xE7)
  else edid

/-- The unconditional DPMS-suppression write of `_filter_edid`
(`src/igvt.c` line 379): clear bits 5-7 of byte 24. -/
def edid_dpms (edid : Nat → Nat) : Nat → Nat :=
  write_edid_byte edid 24 (edid 24 &&& 0x1F)

/-- The pixel clock of timing descriptor `i`, as computed at
`src/igvt.c` line 399: `timingDescriptor[0] + (timingDescriptor[1] << 8)`
converted to `unsigned short` (hence `% 65536`). -/
def pixel_clock (edid : Nat → Nat) (i : Nat) : Nat :=
  (edid (54 + 18 * i) + (edid (55 + 18 * i)) <<< 8) % 65536

/-- One iteration of the pixel-clock capping loop of `_filter_edid`
(`src/igvt.c` lines 397-407): if the clock of descriptor `i` exceeds
16000, store `16000 & 0xff` into its first byte and `16000 >> 8` into its
second byte (in that order, each through `write_edid_byte`). -/
def cap_clock (edid : Nat → Nat) (i : Nat) : Nat → Nat :=
  if pixel_clock edid i > 16000 then
    write_edid_byte (write_edid_byte edid (54 + 18 * i) (16000 &&& 0xff))
      (55 + 18 * i) (16000 >>> 8)
  else edid

/-- `_filter_edid` from `src/igvt.c` (lines 341-408): digital/analog
reconciliation, then DPMS suppression, then the four-iteration pixel-clock
capping loop.  The C function also receives `edid_size`, which it never
reads, so the model omits it. -/
def _filter_edid (edid : Nat → Nat) (analog_port : Bool) : Nat → Nat :=
  cap_clock
    (cap_clock
      (cap_clock
        (cap_clock (edid_dpms (edid_reconcile edid analog_port)) 0) 1) 2) 3

/-- Sum of the first 128 bytes of an EDID buffer (the quantity whose
residue mod 256 the EDID checksum at offset `0x7f` keeps at zero). -/
def sum128 (edid : Nat → Nat) : Nat :=
  Finset.sum (Finset.range 128) edid

/-! ## Pointwise characterization of `write_edid_byte` -/

theorem write_edid_byte_apply_ne (e : Nat → Nat) (b v k : Nat)
    (hkb : k ≠ b) (hk : k ≠ 127) : write_edid_byte e b v k = e k := by
  unfold write_edid_byte
  simp only [Function.update_noteq hk, Function.update_noteq hkb]

theorem write_edid_byte_apply_self (e : Nat → Nat) (b v : Nat)
    (hb : b ≠ 127) : write_edid_byte e b v b = v % 256 := by
  unfold write_edid_byte
  simp only [Function.update_noteq hb, Function.update_same]

theorem write_edid_byte_127_lt (e : Nat → Nat) (b v : Nat) :
    write_edid_byte e b v 127 < 256 := by
  unfold write_edid_byte
  simp only [Function.update_same]
  exact Nat.mod_lt _ (by omega)

theorem write_edid_byte_eq_update (e : Nat → Nat) (b v : Nat) (hb : b ≠ 127) :
    write_edid_byte e b v =
      Function.update (Function.update e b (v % 256)) 127
        (((e 127 + e b) % 256 + 256 - v % 256) % 256) := by
  funext k
  by_cases hk : k = 127
  · subst hk
    unfold write_edid_byte
    simp only [Function.update_same, Function.update_noteq (Ne.symm hb),
      Function.update_noteq hb]
  · by_cases hkb : k = b
    · subst hkb
      unfold write_edid_byte
      simp only [Function.update_noteq hk, Function.update_same]
    · unfold write_edid_byte
      simp only [Function.update_noteq hk, Function.update_noteq hkb]

theorem write_edid_byte_self (e : Nat → Nat) (b : Nat) (hb : b ≠ 127)
    (h1 : e b < 256) (h2 : e 127 < 256) :
    write_edid_byte e b (e b) = e := by
  rw [write_edid_byte_eq_update e b (e b) hb]
  rw [Nat.mod_eq_of_lt h1, Function.update_eq_self]
  have hc : ((e 127 + e b) % 256 + 256 - e b) % 256 = e 127 := by omega
  rw [hc, Function.update_eq_self]

/-! ## The checksum invariant of the write primitive -/

theorem sum128_write_mod (e : Nat → Nat) (b v : Nat) (hb : b < 127) :
    sum128 (write_edid_byte e b v) % 256 = sum128 e % 256 := by
  rw [write_edid_byte_eq_update e b v (by omega)]
  unfold sum128
  have h127 : (127 : Nat) ∈ Finset.range 128 := by decide
  rw [Finset.sum_update_of_mem h127]
  have hbmem : b ∈ Finset.range 128 \ {127} := by
    simp only [Finset.mem_sdiff, Finset.mem_range, Finset.mem_singleton]
    omega
  rw [Finset.sum_update_of_mem hbmem]
  rw [Finset.sum_eq_sum_diff_singleton_add h127 e,
    Finset.sum_eq_sum_diff_singleton_add hbmem e]
  have hw : v % 256 < 256 := Nat.mod_lt _ (by omega)
  generalize Finset.sum ((Finset.range 128 \ {127}) \ {b}) e = T
  generalize v % 256 = w at hw ⊢
  omega

/-! ## Frame lemmas for the patch stages -/

theorem edid_reconcile_apply_ne (e : Nat → Nat) (d : Bool) (k : Nat)
    (h20 : k ≠ 20) (h24 : k ≠ 24) (h127 : k ≠ 127) :
    edid_reconcile e d k = e k := by
  unfold edid_reconcile
  split
  · rw [write_edid_byte_apply_ne _ _ _ _ h24 h127,
      write_edid_byte_apply_ne _ _ _ _ h20 h127]
  · split
    · rw [write_edid_byte_apply_ne _ _ _ _ h24 h127,
        write_edid_byte_apply_ne _ _ _ _ h20 h127]
    · rfl

theorem edid_dpms_apply_ne (e : Nat → Nat) (k : Nat)
    (h24 : k ≠ 24) (h127 : k ≠ 127) : edid_dpms e k = e k :=
  write_edid_byte_apply_ne _ _ _ _ h24 h127

theorem cap_clock_apply_ne (e : Nat → Nat) (i k : Nat)
    (h1 : k ≠ 54 + 18 * i) (h2 : k ≠ 55 + 18 * i) (h127 : k ≠ 127) :
    cap_clock e i k = e k := by
  unfold cap_clock
  split
  · rw [write_edid_byte_apply_ne _ _ _ _ h2 h127,
      write_edid_byte_apply_ne _ _ _ _ h1 h127]
  · rfl

/-! ## The checksum survives every stage of the patch -/

theorem sum128_reconcile_mod (e : Nat → Nat) (d : Bool) :
    sum128 (edid_reconcile e d) % 256 = sum128 e % 256 := by
  unfold edid_reconcile
  split
  · rw [sum128_write_mod _ _ _ (by omega), sum128_write_mod _ _ _ (by omega)]
  · split
    · rw [sum128_write_mod _ _ _ (by omega), sum128_write_mod _ _ _ (by omega)]
    · rfl

theorem sum128_dpms_mod (e : Nat → Nat) :
    sum128 (edid_dpms e) % 256 = sum128 e % 256 :=
  sum128_write_mod _ _ _ (by omega)

theorem sum128_cap_mod (e : Nat → Nat) (i : Nat) (hi : i < 4) :
    sum128 (cap_clock e i) % 256 = sum128 e % 256 := by
  unfold cap_clock
  split
  · rw [sum128_write_mod _ _ _ (by omega), sum128_write_mod _ _ _ (by omega)]
  · rfl

theorem sum128_filter_mod (e : Nat → Nat) (d : Bool) :
    sum128 (_filter_edid e d) % 256 = sum128 e % 256 := by
  unfold _filter_edid
  rw [sum128_cap_mod _ _ (by omega), sum128_cap_mod _ _ (by omega),
    sum128_cap_mod _ _ (by omega), sum128_cap_mod _ _ (by omega),
    sum128_dpms_mod, sum128_reconcile_mod]

/-! ## Pixel-clock lemmas -/

theorem pixel_clock_write_ne (e : Nat → Nat) (b v i : Nat)
    (h1 : b ≠ 54 + 18 * i) (h2 : b ≠ 55 + 18 * i) (hi : i < 4) :
    pixel_clock (write_edid_byte e b v) i = pixel_clock e i := by
  unfold pixel_clock
  rw [write_edid_byte_apply_ne _ _ _ _ (Ne.symm h1) (by omega),
    write_edid_byte_apply_ne _ _ _ _ (Ne.symm h2) (by omega)]

theorem cap_clock_of_le (e : Nat → Nat) (i : Nat)
    (h : pixel_clock e i ≤ 16000) : cap_clock e i = e := by
  unfold cap_clock
  rw [if_neg]
  omega

theorem cap_clock_gt_bytes (e : Nat → Nat) (i : Nat) (hi : i < 4)
    (h : 16000 < pixel_clock e i) :
    cap_clock e i (54 + 18 * i) = 128 ∧ cap_clock e i (55 + 18 * i) = 62 := by
  unfold cap_clock
  rw [if_pos (by omega)]
  constructor
  · rw [write_edid_byte_apply_ne _ _ _ _ (by omega) (by omega),
      write_edid_byte_apply_self _ _ _ (by omega)]
    decide
  · rw [write_edid_byte_apply_self _ _ _ (by omega)]
    decide

theorem pixel_clock_cap_self_le (e : Nat → Nat) (i : Nat) (hi : i < 4) :
    pixel_clock (cap_clock e i) i ≤ 16000 := by
  by_cases h : pixel_clock e i ≤ 16000
  · rw [cap_clock_of_le e i h]
    exact h
  · have hb := cap_clock_gt_bytes e i hi (by omega)
    unfold pixel_clock
    rw [hb.1, hb.2]
    decide

theorem pixel_clock_cap_other (e : Nat → Nat) (i j : Nat)
    (hi : i < 4) (_hj : j < 4) (hij : j ≠ i) :
    pixel_clock (cap_clock e j) i = pixel_clock e i := by
  unfold cap_clock
  split
  · rw [pixel_clock_write_ne _ _ _ _ (by omega) (by omega) hi,
      pixel_clock_write_ne _ _ _ _ (by omega) (by omega) hi]
  · rfl

/-! ## Small bit facts -/

theorem and128_of_ne_zero (x : Nat) (h : x &&& 128 ≠ 0) : x &&& 128 = 128 := by
  have htp := Nat.and_two_pow x 7
  norm_num at htp
  rw [htp] at h ⊢
  cases hx : x.testBit 7 <;> simp [hx] at h ⊢

theorem and31_of_lt : ∀ a : Nat, a < 32 → a &&& 31 = a := by decide

/-! ## Values of the patched buffer at bytes 20, 24 and 127 -/

theorem edid_dpms_apply_24 (e : Nat → Nat) : edid_dpms e 24 = e 24 &&& 0x1F := by
  unfold edid_dpms
  rw [write_edid_byte_apply_self _ _ _ (by omega)]
  exact Nat.mod_eq_of_lt (lt_of_le_of_lt Nat.and_le_right (by omega))

theorem filter_apply_20 (e : Nat → Nat) (d : Bool) :
    _filter_edid e d 20 = edid_reconcile e d 20 := by
  unfold _filter_edid
  rw [cap_clock_apply_ne _ 3 _ (by omega) (by omega) (by omega),
    cap_clock_apply_ne _ 2 _ (by omega) (by omega) (by omega),
    cap_clock_apply_ne _ 1 _ (by omega) (by omega) (by omega),
    cap_clock_apply_ne _ 0 _ (by omega) (by omega) (by omega),
    edid_dpms_apply_ne _ _ (by omega) (by omega)]

theorem filter_apply_24 (e : Nat → Nat) (d : Bool) :
    _filter_edid e d 24 = edid_reconcile e d 24 &&& 0x1F := by
  unfold _filter_edid
  rw [cap_clock_apply_ne _ 3 _ (by omega) (by omega) (by omega),
    cap_clock_apply_ne _ 2 _ (by omega) (by omega) (by omega),
    cap_clock_apply_ne _ 1 _ (by omega) (by omega) (by omega),
    cap_clock_apply_ne _ 0 _ (by omega) (by omega) (by omega),
    edid_dpms_apply_24]

theorem edid_reconcile_bit7 (e : Nat → Nat) (d : Bool) :
    edid_reconcile e d 20 &&& 0x80 = if d then 0 else 0x80 := by
  unfold edid_reconcile
  cases d with
  | true =>
    by_cases hbit : e 20 &&& 0x80 = 0
    · rw [if_neg (by simp [hbit]), if_neg (by simp)]
      simpa using hbit
    · rw [if_pos (by simp [hbit])]
      rw [write_edid_byte_apply_ne _ _ _ _ (by omega) (by omega),
        write_edid_byte_apply_self _ _ _ (by omega)]
      simp
  | false =>
    by_cases hbit : e 20 &&& 0x80 = 0
    · rw [if_neg (by simp), if_pos (by simp [hbit])]
      rw [write_edid_byte_apply_ne _ _ _ _ (by omega) (by omega),
        write_edid_byte_apply_self _ _ _ (by omega)]
      simp
    · rw [if_neg (by simp [hbit]), if_neg (by simp [hbit])]
      simpa using and128_of_ne_zero _ (by simpa using hbit)

theorem filter_127_lt (e : Nat → Nat) (d : Bool) : _filter_edid e d 127 < 256 := by
  unfold _filter_edid
  have hcap : ∀ (f : Nat → Nat) (i : Nat), f 127 < 256 → cap_clock f i 127 < 256 := by
    intro f i hf
    unfold cap_clock
    split
    · exact write_edid_byte_127_lt _ _ _
    · exact hf
  exact hcap _ 3 (hcap _ 2 (hcap _ 1 (hcap _ 0 (write_edid_byte_127_lt _ _ _))))

theorem pixel_clock_filter_le (e : Nat → Nat) (d : Bool) (i : Nat) (hi : i < 4) :
    pixel_clock (_filter_edid e d) i ≤ 16000 := by
  unfold _filter_edid
  interval_cases i
  · rw [pixel_clock_cap_other _ 0 3 (by omega) (by omega) (by omega),
      pixel_clock_cap_other _ 0 2 (by omega) (by omega) (by omega),
      pixel_clock_cap_other _ 0 1 (by omega) (by omega) (by omega)]
    exact pixel_clock_cap_self_le _ 0 (by omega)
  · rw [pixel_clock_cap_other _ 1 3 (by omega) (by omega) (by omega),
      pixel_clock_cap_other _ 1 2 (by omega) (by omega) (by omega)]
    exact pixel_clock_cap_self_le _ 1 (by omega)
  · rw [pixel_clock_cap_other _ 2 3 (by omega) (by omega) (by omega)]
    exact pixel_clock_cap_self_le _ 2 (by omega)
  · exact pixel_clock_cap_self_le _ 3 (by omega)

/-! ## Idempotence of the patch -/

theorem edid_reconcile_filter (e : Nat → Nat) (d : Bool) :
    edid_reconcile (_filter_edid e d) d = _filter_edid e d := by
  have h20 : _filter_edid e d 20 &&& 0x80 = if d then 0 else 0x80 := by
    rw [filter_apply_20]
    exact edid_reconcile_bit7 e d
  unfold edid_reconcile
  cases d with
  | true =>
    simp only [if_pos] at h20
    rw [if_neg (by simp [h20]), if_neg (by simp)]
  | false =>
    simp only [if_neg] at h20
    rw [if_neg (by simp), if_neg (by simp [h20])]

theorem edid_dpms_filter (e : Nat → Nat) (d : Bool) :
    edid_dpms (_filter_edid e d) = _filter_edid e d := by
  have h24 : _filter_edid e d 24 &&& 0x1F = _filter_edid e d 24 := by
    rw [filter_apply_24]
    exact and31_of_lt _ (lt_of_le_of_lt Nat.and_le_right (by omega))
  unfold edid_dpms
  rw [h24]
  refine write_edid_byte_self _ _ (by omega) ?_ (filter_127_lt e d)
  rw [filter_apply_24]
  exact lt_of_le_of_lt Nat.and_le_right (by omega)

theorem filter_edid_idem (e : Nat → Nat) (d : Bool) :
    _filter_edid (_filter_edid e d) d = _filter_edid e d := by
  have hunfold : _filter_edid (_filter_edid e d) d =
      cap_clock (cap_clock (cap_clock (cap_clock
        (edid_dpms (edid_reconcile (_filter_edid e d) d)) 0) 1) 2) 3 := rfl
  rw [hunfold, edid_reconcile_filter, edid_dpms_filter,
    cap_clock_of_le _ 0 (pixel_clock_filter_le e d 0 (by omega)),
    cap_clock_of_le _ 1 (pixel_clock_filter_le e d 1 (by omega)),
    cap_clock_of_le _ 2 (pixel_clock_filter_le e d 2 (by omega)),
    cap_clock_of_le _ 3 (pixel_clock_filter_le e d 3 (by omega))]

/-! ## Port registry

The `gt_port` enum of `src/igvt.h` is a C enum, i.e. an integer type, so
ports are modelled as `Int`: `PORT_A = PORT_EDP = 0`, `PORT_B = 1`,
`PORT_C = 2`, `PORT_D = 3`, `PORT_E = PORT_VGA = 4`, `GVT_MAX_PORTS = 5`.
-/

/-- `PORT_A`/`PORT_EDP` ordinal of the `gt_port` enum. -/
def PORT_EDP : Int := 0

/-- `PORT_B` ordinal of the `gt_port` enum. -/
def PORT_B : Int := 1

/-- `PORT_C` ordinal of the `gt_port` enum. -/
def PORT_C : Int := 2

/-- `PORT_D` ordinal of the `gt_port` enum. -/
def PORT_D : Int := 3

/-- `PORT_E`/`PORT_VGA` ordinal of the `gt_port` enum. -/
def PORT_VGA : Int := 4

/-- `PORT_ILLEGAL`, the failure sentinel returned by
`igvt_translate_i915_port`.  The macro is referenced by `src/igvt.c` but
not defined anywhere in the tree; `src/igvt.h` documents the failure
return of that function as `MAX_PORTS`, i.e. `GVT_MAX_PORTS = 5`, the
first ordinal past the five valid ports, so that value is used here.
Nothing below depends on the exact value beyond it not being a valid
port ordinal. -/
def PORT_ILLEGAL : Int := 5

/-- `igvt_is_valid_port_p` from `src/igvt.c` (lines 48-66): the switch
accepts exactly the five enumerators `PORT_EDP`, `PORT_B`, `PORT_C`,
`PORT_D`, `PORT_VGA` (ordinals 0-4); the C `int` result is modelled as
`Bool`. -/
def igvt_is_valid_port_p (port : Int) : Bool :=
  port == PORT_EDP || port == PORT_B || port == PORT_C ||
    port == PORT_D || port == PORT_VGA

/-- `is_port_digital` from `src/igvt.c` (lines 410-414): `port < PORT_E`. -/
def is_port_digital (port : Int) : Bool :=
  decide (port < 4)

/-- The `port_strings` table of `src/igvt.c` (lines 40-46), indexed by
port ordinal.  The C array has no out-of-range behaviour (it is only
indexed with already-validated ports); out-of-range ordinals are mapped
to `""` here. -/
def port_strings (port : Int) : String :=
  if port = 0 then "PORT_A"
  else if port = 1 then "PORT_B"
  else if port = 2 then "PORT_C"
  else if port = 3 then "PORT_D"
  else if port = 4 then "PORT_E"
  else ""

/-- `igvt_translate_i915_port` from `src/igvt.c` (lines 215-242): the
strcmp chain mapping i915 connector names to `gt_port` ordinals
(`DP-n` and `HDMI-A-n` both map to the same port). -/
def igvt_translate_i915_port (i915_port_name : String) : Int :=
  if i915_port_name == "card0-eDP-1" then PORT_EDP
  else if i915_port_name == "card0-DP-1" then PORT_B
  else if i915_port_name == "card0-HDMI-A-1" then PORT_B
  else if i915_port_name == "card0-DP-2" then PORT_C
  else if i915_port_name == "card0-HDMI-A-2" then PORT_C
  else if i915_port_name == "card0-DP-3" then PORT_D
  else if i915_port_name == "card0-HDMI-A-3" then PORT_D
  else if i915_port_name == "card0-VGA-1" then PORT_VGA
  else PORT_ILLEGAL

/-- `igvt_translate_pgt_port` from `src/igvt.c` (lines 252-271): the
switch mapping `gt_port` ordinals to connector names.  Note the source
literally returns `"card-HDMI-A-1"` (without the `0`) for `PORT_B`. -/
def igvt_translate_pgt_port (pgt_port_num : Int) : String :=
  if pgt_port_num = PORT_EDP then "card0-eDP-1"
  else if pgt_port_num = PORT_B then "card-HDMI-A-1"
  else if pgt_port_num = PORT_C then "card0-HDMI-A-2"
  else if pgt_port_num = PORT_D then "card0-HDMI-A-3"
  else if pgt_port_num = PORT_VGA then "card0-VGA-1"
  else "INVALID"

/-! ## Control-channel model

The sysfs tree is modelled as a static environment: whether the per-VM
directory `/sys/kernel/vgt/vm<domid>` exists (`stat`), whether a given
per-port attribute file can be opened for writing (`fopen(..., "w")`),
whether the `connection` attribute can be opened for reading, and the
textual content read from it.  Each protocol operation returns its C
`int` result together with the ordered list of control-channel writes it
performed. -/

/-- A value written to a control-channel attribute: text (via `fprintf`)
or raw bytes (via `fwrite`). -/
inductive Payload where
  | text : String → Payload
  | bytes : List Nat → Payload
deriving DecidableEq

/-- One control-channel write: domain, port, attribute name, payload. -/
structure WEvent where
  domid : Nat
  port : Int
  attr : String
  payload : Payload
deriving DecidableEq

/-- The static sysfs environment visible to one protocol call. -/
structure Env where
  vm_exists : Nat → Bool
  can_write : Nat → Int → String → Bool
  can_read_conn : Nat → Int → Bool
  conn_content : Nat → Int → String

/-- `igvt_enabled_p` from `src/igvt.c` (lines 83-102): domain 0 is never
a valid igvt domain; otherwise the per-VM directory must exist. -/
def igvt_enabled_p (env : Env) (domid : Nat) : Bool :=
  if domid = 0 then false
  else env.vm_exists domid

/-- The whitespace set of C `fscanf`'s `%s` conversion. -/
def is_scanf_space (c : Char) : Bool :=
  c == ' ' || c == '\t' || c == '\n' || c == '\r' || c == '\x0b' || c == '\x0c'

/-- The effect of `fscanf(f, "%s", c)` on the file content `s`: skip
leading whitespace, then read a maximal non-whitespace token; `none`
models a conversion count `≠ 1` (empty or all-whitespace content). -/
def fscanf_s (s : String) : Option String :=
  let rest := s.toList.dropWhile is_scanf_space
  let tok := rest.takeWhile (fun c => !(is_scanf_space c))
  if tok.isEmpty then none else some (String.mk tok)

/-- `igvt_port_plugged_p` from `src/igvt.c` (lines 570-629): every
failure path (invalid domain, invalid port, missing VM directory,
unopenable or unreadable `connection` attribute) yields 0/false; 1/true
is returned exactly when the token scanned from the `connection`
attribute compares equal to `"connected"`. -/
def igvt_port_plugged_p (env : Env) (domid : Nat) (vgt_port : Int) : Bool :=
  if !(igvt_enabled_p env domid) then false
  else if !(igvt_is_valid_port_p vgt_port) then false
  else if domid = 0 then false
  else if !(env.vm_exists domid) then false
  else if !(env.can_read_conn domid vgt_port) then false
  else
    match fscanf_s (env.conn_content domid vgt_port) with
    | none => false
    | some c => c == "connected"

/-- `igvt_unplug_display` from `src/igvt.c` (lines 526-561): validate
domain and port (`-EINVAL`), open the port's `connection` attribute for
writing (`-ENODEV` on failure), write `"disconnect\n"`. -/
def igvt_unplug_display (env : Env) (domid : Nat) (vgt_port : Int) :
    Int × List WEvent :=
  if !(igvt_enabled_p env domid) then (-EINVAL, [])
  else if !(igvt_is_valid_port_p vgt_port) then (-EINVAL, [])
  else if !(env.can_write domid vgt_port "connection") then (-ENODEV, [])
  else (0, [⟨domid, vgt_port, "connection", Payload.text "disconnect\n"⟩])

/-- `igvt_plug_display` from `src/igvt.c` (lines 426-517): validate the
domain and both ports (`-EINVAL`, before any write); unplug first if the
port is currently plugged (the unplug result is ignored); write the
physical port's control name to `port_override`; patch the caller's EDID
buffer in place with `_filter_edid(edid, edid_size,
is_port_digital(vgt_port))`; write the first `min(edid_size, 128)` bytes
of the patched buffer to `edid`; write `"connect\n"` to `connection`.
Any attribute that cannot be opened aborts with `-ENODEV`.  The result
is `(return value, final state of the caller's buffer, write trace)`. -/
def igvt_plug_display (env : Env) (domid : Nat) (vgt_port : Int)
    (edid : Nat → Nat) (edid_size : Nat) (pgt_port : Int) :
    Int × (Nat → Nat) × List WEvent :=
  if !(igvt_enabled_p env domid) then (-EINVAL, edid, [])
  else if !(igvt_is_valid_port_p vgt_port) then (-EINVAL, edid, [])
  else if !(igvt_is_valid_port_p pgt_port) then (-EINVAL, edid, [])
  else
    let tr0 : List WEvent :=
      if igvt_port_plugged_p env domid vgt_port then
        (igvt_unplug_display env domid vgt_port).2
      else []
    if !(env.can_write domid vgt_port "port_override") then (-ENODEV, edid, tr0)
    else
      let tr1 := tr0 ++
        [⟨domid, vgt_port, "port_override", Payload.text (port_strings pgt_port ++ "\n")⟩]
      let patched := _filter_edid edid (is_port_digital vgt_port)
      if !(env.can_write domid vgt_port "edid") then (-ENODEV, patched, tr1)
      else
        let sz := if edid_size > 128 then 128 else edid_size
        let tr2 := tr1 ++ [⟨domid, vgt_port, "edid", Payload.bytes ((List.range sz).map patched)⟩]
        if !(env.can_write domid vgt_port "connection") then (-ENODEV, patched, tr2)
        else (0, patched, tr2 ++ [⟨domid, vgt_port, "connection", Payload.text "connect\n"⟩])

/-! ## Values of the reconciliation step at bytes 20 and 24 -/

theorem edid_reconcile_digital (e : Nat → Nat) (d : Bool)
    (hd : d = true) (hbit : e 20 &&& 0x80 ≠ 0) :
    edid_reconcile e d 20 = 0x00 ∧
      edid_reconcile e d 24 = (e 24 &&& 0xE7) ||| 0x08 := by
  subst hd
  unfold edid_reconcile
  rw [if_pos ⟨rfl, hbit⟩]
  constructor
  · rw [write_edid_byte_apply_ne _ _ _ _ (by omega) (by omega),
      write_edid_byte_apply_self _ _ _ (by omega)]
  · rw [write_edid_byte_apply_self _ _ _ (by omega),
      write_edid_byte_apply_ne _ _ _ _ (by omega) (by omega)]
    refine Nat.mod_eq_of_lt ?_
    have h1 : e 24 &&& 0xE7 < 2 ^ 8 := lt_of_le_of_lt Nat.and_le_right (by norm_num)
    have h2 : (0x08 : Nat) < 2 ^ 8 := by norm_num
    have := Nat.or_lt_two_pow h1 h2
    norm_num at this
    exact this

theorem edid_reconcile_analog (e : Nat → Nat) (d : Bool)
    (hd : d = false) (hbit : e 20 &&& 0x80 = 0) :
    edid_reconcile e d 20 = 0x80 ∧
      edid_reconcile e d 24 = e 24 &&& 0xE7 := by
  subst hd
  unfold edid_reconcile
  rw [if_neg (by simp), if_pos ⟨by simp, hbit⟩]
  constructor
  · rw [write_edid_byte_apply_ne _ _ _ _ (by omega) (by omega),
      write_edid_byte_apply_self _ _ _ (by omega)]
  · rw [write_edid_byte_apply_self _ _ _ (by omega),
      write_edid_byte_apply_ne _ _ _ _ (by omega) (by omega)]
    exact Nat.mod_eq_of_lt (lt_of_le_of_lt Nat.and_le_right (by omega))

theorem edid_reconcile_noop (e : Nat → Nat) (d : Bool)
    (h : (d = true ∧ e 20 &&& 0x80 = 0) ∨ (d = false ∧ e 20 &&& 0x80 ≠ 0)) :
    edid_reconcile e d = e := by
  unfold edid_reconcile
  rcases h with ⟨hd, hbit⟩ | ⟨hd, hbit⟩ <;> subst hd
  · rw [if_neg (by simp [hbit]), if_neg (by simp)]
  · rw [if_neg (by simp), if_neg (by simp [hbit])]

/-! ## Descriptor bytes of the fully patched buffer -/

theorem stage1_descriptor (e : Nat → Nat) (d : Bool) (i : Nat) (hi : i < 4) :
    edid_dpms (edid_reconcile e d) (54 + 18 * i) = e (54 + 18 * i) ∧
    edid_dpms (edid_reconcile e d) (55 + 18 * i) = e (55 + 18 * i) ∧
    pixel_clock (edid_dpms (edid_reconcile e d)) i = pixel_clock e i := by
  refine ⟨?_, ?_, ?_⟩
  · rw [edid_dpms_apply_ne _ _ (by omega) (by omega),
      edid_reconcile_apply_ne _ _ _ (by omega) (by omega) (by omega)]
  · rw [edid_dpms_apply_ne _ _ (by omega) (by omega),
      edid_reconcile_apply_ne _ _ _ (by omega) (by omega) (by omega)]
  · unfold pixel_clock
    rw [edid_dpms_apply_ne _ _ (by omega) (by omega),
      edid_reconcile_apply_ne _ _ _ (by omega) (by omega) (by omega),
      edid_dpms_apply_ne _ _ (by omega) (by omega),
      edid_reconcile_apply_ne _ _ _ (by omega) (by omega) (by omega)]

theorem filter_descriptor (e : Nat → Nat) (d : Bool) (i : Nat) (hi : i < 4) :
    (pixel_clock e i ≤ 16000 →
      _filter_edid e d (54 + 18 * i) = e (54 + 18 * i) ∧
      _filter_edid e d (55 + 18 * i) = e (55 + 18 * i)) ∧
    (16000 < pixel_clock e i →
      _filter_edid e d (54 + 18 * i) = 128 ∧
      _filter_edid e d (55 + 18 * i) = 62) := by
  obtain ⟨hs0, hs1, hsc⟩ := stage1_descriptor e d i hi
  unfold _filter_edid
  interval_cases i
  · have hc : pixel_clock (edid_dpms (edid_reconcile e d)) 0 = pixel_clock e 0 := hsc
    constructor
    · intro hle
      rw [cap_clock_apply_ne _ 3 _ (by omega) (by omega) (by omega),
        cap_clock_apply_ne _ 3 _ (by omega) (by omega) (by omega),
        cap_clock_apply_ne _ 2 _ (by omega) (by omega) (by omega),
        cap_clock_apply_ne _ 2 _ (by omega) (by omega) (by omega),
        cap_clock_apply_ne _ 1 _ (by omega) (by omega) (by omega),
        cap_clock_apply_ne _ 1 _ (by omega) (by omega) (by omega),
        cap_clock_of_le _ 0 (by rw [hc]; exact hle)]
      exact ⟨hs0, hs1⟩
    · intro hgt
      have hb := cap_clock_gt_bytes (edid_dpms (edid_reconcile e d)) 0 (by omega)
        (by rw [hc]; exact hgt)
      rw [cap_clock_apply_ne _ 3 _ (by omega) (by omega) (by omega),
        cap_clock_apply_ne _ 3 _ (by omega) (by omega) (by omega),
        cap_clock_apply_ne _ 2 _ (by omega) (by omega) (by omega),
        cap_clock_apply_ne _ 2 _ (by omega) (by omega) (by omega),
        cap_clock_apply_ne _ 1 _ (by omega) (by omega) (by omega),
        cap_clock_apply_ne _ 1 _ (by omega) (by omega) (by omega)]
      exact hb
  · have hc : pixel_clock (cap_clock (edid_dpms (edid_reconcile e d)) 0) 1 = pixel_clock e 1 := by
      rw [pixel_clock_cap_other _ 1 0 (by omega) (by omega) (by omega)]
      exact hsc
    have hf0 : cap_clock (edid_dpms (edid_reconcile e d)) 0 (54 + 18 * 1) =
        e (54 + 18 * 1) := by
      rw [cap_clock_apply_ne _ 0 _ (by omega) (by omega) (by omega)]
      exact hs0
    have hf1 : cap_clock (edid_dpms (edid_reconcile e d)) 0 (55 + 18 * 1) =
        e (55 + 18 * 1) := by
      rw [cap_clock_apply_ne _ 0 _ (by omega) (by omega) (by omega)]
      exact hs1
    constructor
    · intro hle
      rw [cap_clock_apply_ne _ 3 _ (by omega) (by omega) (by omega),
        cap_clock_apply_ne _ 3 _ (by omega) (by omega) (by omega),
        cap_clock_apply_ne _ 2 _ (by omega) (by omega) (by omega),
        cap_clock_apply_ne _ 2 _ (by omega) (by omega) (by omega),
        cap_clock_of_le _ 1 (by rw [hc]; exact hle)]
      exact ⟨hf0, hf1⟩
    · intro hgt
      have hb := cap_clock_gt_bytes (cap_clock (edid_dpms (edid_reconcile e d)) 0) 1 (by omega)
        (by rw [hc]; exact hgt)
      rw [cap_clock_apply_ne _ 3 _ (by omega) (by omega) (by omega),
        cap_clock_apply_ne _ 3 _ (by omega) (by omega) (by omega),
        cap_clock_apply_ne _ 2 _ (by omega) (by omega) (by omega),
        cap_clock_apply_ne _ 2 _ (by omega) (by omega) (by omega)]
      exact hb
  · have hc : pixel_clock (cap_clock (cap_clock (edid_dpms (edid_reconcile e d)) 0) 1) 2 =
        pixel_clock e 2 := by
      rw [pixel_clock_cap_other _ 2 1 (by omega) (by omega) (by omega),
        pixel_clock_cap_other _ 2 0 (by omega) (by omega) (by omega)]
      exact hsc
    have hf0 : cap_clock (cap_clock (edid_dpms (edid_reconcile e d)) 0) 1 (54 + 18 * 2) =
        e (54 + 18 * 2) := by
      rw [cap_clock_apply_ne _ 1 _ (by omega) (by omega) (by omega),
        cap_clock_apply_ne _ 0 _ (by omega) (by omega) (by omega)]
      exact hs0
    have hf1 : cap_clock (cap_clock (edid_dpms (edid_reconcile e d)) 0) 1 (55 + 18 * 2) =
        e (55 + 18 * 2) := by
      rw [cap_clock_apply_ne _ 1 _ (by omega) (by omega) (by omega),
        cap_clock_apply_ne _ 0 _ (by omega) (by omega) (by omega)]
      exact hs1
    constructor
    · intro hle
      rw [cap_clock_apply_ne _ 3 _ (by omega) (by omega) (by omega),
        cap_clock_apply_ne _ 3 _ (by omega) (by omega) (by omega),
        cap_clock_of_le _ 2 (by rw [hc]; exact hle)]
      exact ⟨hf0, hf1⟩
    · intro hgt
      have hb := cap_clock_gt_bytes
        (cap_clock (cap_clock (edid_dpms (edid_reconcile e d)) 0) 1) 2 (by omega)
        (by rw [hc]; exact hgt)
      rw [cap_clock_apply_ne _ 3 _ (by omega) (by omega) (by omega),
        cap_clock_apply_ne _ 3 _ (by omega) (by omega) (by omega)]
      exact hb
  · have hc : pixel_clock
        (cap_clock (cap_clock (cap_clock (edid_dpms (edid_reconcile e d)) 0) 1) 2) 3 =
        pixel_clock e 3 := by
      rw [pixel_clock_cap_other _ 3 2 (by omega) (by omega) (by omega),
        pixel_clock_cap_other _ 3 1 (by omega) (by omega) (by omega),
        pixel_clock_cap_other _ 3 0 (by omega) (by omega) (by omega)]
      exact hsc
    have hf0 : cap_clock (cap_clock (cap_clock (edid_dpms (edid_reconcile e d)) 0) 1) 2
        (54 + 18 * 3) = e (54 + 18 * 3) := by
      rw [cap_clock_apply_ne _ 2 _ (by omega) (by omega) (by omega),
        cap_clock_apply_ne _ 1 _ (by omega) (by omega) (by omega),
        cap_clock_apply_ne _ 0 _ (by omega) (by omega) (by omega)]
      exact hs0
    have hf1 : cap_clock (cap_clock (cap_clock (edid_dpms (edid_reconcile e d)) 0) 1) 2
        (55 + 18 * 3) = e (55 + 18 * 3) := by
      rw [cap_clock_apply_ne _ 2 _ (by omega) (by omega) (by omega),
        cap_clock_apply_ne _ 1 _ (by omega) (by omega) (by omega),
        cap_clock_apply_ne _ 0 _ (by omega) (by omega) (by omega)]
      exact hs1
    constructor
    · intro hle
      rw [cap_clock_of_le _ 3 (by rw [hc]; exact hle)]
      exact ⟨hf0, hf1⟩
    · intro hgt
      exact cap_clock_gt_bytes _ 3 (by omega) (by rw [hc]; exact hgt)

/-! ## Claim theorems -/

/-- C1: for every EDID byte buffer whose first 128 bytes sum to 0 mod 256
and either value of the flag, the buffer produced by `_filter_edid` also
has its first 128 bytes summing to 0 mod 256; moreover checksum validity
is preserved by every individual `write_edid_byte` call at any offset
below the checksum byte `0x7f` (which covers every write the patch
performs: offsets 20, 24, 54, 55, 72, 73, 90, 91, 108, 109). -/
theorem claim_C1_checksum_invariant (e : Nat → Nat) (d : Bool)
    (h : sum128 e % 256 = 0) :
    sum128 (_filter_edid e d) % 256 = 0 ∧
    (∀ (f : Nat → Nat) (b v : Nat), b < 127 → sum128 f % 256 = 0 →
      sum128 (write_edid_byte f b v) % 256 = 0) := by
  refine ⟨?_, ?_⟩
  · rw [sum128_filter_mod]
    exact h
  · intro f b v hb hf
    rw [sum128_write_mod _ _ _ hb]
    exact hf

set_option maxRecDepth 8000 in
/-- Witness for C1 at the all-zero buffer (valid checksum) with a write
of value 5 at offset 20. -/
theorem claim_C1_checksum_invariant_witness :
    sum128 (fun _ => 0) % 256 = 0 ∧
    sum128 (_filter_edid (fun _ => 0) false) % 256 = 0 ∧
    sum128 (write_edid_byte (fun _ => 0) 20 5) % 256 = 0 :=
  ⟨by decide,
   (claim_C1_checksum_invariant (fun _ => 0) false (by decide)).1,
   (claim_C1_checksum_invariant (fun _ => 0) false (by decide)).2
     (fun _ => 0) 20 5 (by decide) (by decide)⟩

/-- A buffer with bit 7 of byte 20 set (flagged digital) and all other
bytes zero, used as the C2 counterexample input. -/
def c2_buf : Nat → Nat := fun k => if k = 20 then 0x80 else 0

set_option maxRecDepth 8000 in
/-- C2 counterexample: the claim says that patching with
`is_digital = false` while bit 7 of byte 20 is set clears bit 7.  On the
code, running `_filter_edid` with third argument `false` (exactly what
`igvt_plug_display` passes for an analog port) on a buffer with bit 7 of
byte 20 set leaves byte 20 unchanged at `0x80`: the branch guarded by
`analog_port && (edid[20] & 0x80)` requires the flag to be TRUE, so with
a false flag and bit 7 set neither branch fires. -/
theorem claim_C2_counterexample :
    _filter_edid c2_buf false 20 = 0x80 ∧
    ¬ (_filter_edid c2_buf false 20 &&& 0x80 = 0) := by
  constructor
  · decide
  · decide

/-- C2 (amended): the reconciliation step of `_filter_edid` treats its
flag argument with the polarity of its formal parameter name
`analog_port`, inverted from the claim: when the flag is TRUE and bit 7
of byte 20 is set, it clears bit 7 and sets bits 3-4 of byte 24 to
binary 01 (`(byte24 & 0xE7) | 0x08`); when the flag is FALSE and bit 7
is clear, it sets bit 7 and clears bits 3-4 (`byte24 & 0xE7`); in the
two remaining cases (flag true with bit 7 clear, flag false with bit 7
set) the reconciliation step leaves the whole buffer untouched. -/
theorem claim_C2_reconcile_behaviour (e : Nat → Nat) (d : Bool) :
    ((d = true ∧ e 20 &&& 0x80 ≠ 0) →
      edid_reconcile e d 20 = 0x00 ∧
      edid_reconcile e d 24 = (e 24 &&& 0xE7) ||| 0x08) ∧
    ((d = false ∧ e 20 &&& 0x80 = 0) →
      edid_reconcile e d 20 = 0x80 ∧
      edid_reconcile e d 24 = e 24 &&& 0xE7) ∧
    (((d = true ∧ e 20 &&& 0x80 = 0) ∨ (d = false ∧ e 20 &&& 0x80 ≠ 0)) →
      edid_reconcile e d = e) := by
  refine ⟨fun h => ?_, fun h => ?_, fun h => edid_reconcile_noop e d h⟩
  · exact edid_reconcile_digital e d h.1 h.2
  · exact edid_reconcile_analog e d h.1 h.2

/-- Witness for C2 (amended): the first branch at `c2_buf` with a true
flag, and the noop case at `c2_buf` with a false flag. -/
theorem claim_C2_reconcile_behaviour_witness :
    (c2_buf 20 &&& 0x80 ≠ 0) ∧
    (edid_reconcile c2_buf true 20 = 0x00 ∧
      edid_reconcile c2_buf true 24 = (c2_buf 24 &&& 0xE7) ||| 0x08) ∧
    edid_reconcile c2_buf false = c2_buf :=
  ⟨by decide,
   (claim_C2_reconcile_behaviour c2_buf true).1 ⟨rfl, by decide⟩,
   (claim_C2_reconcile_behaviour c2_buf false).2.2 (Or.inr ⟨rfl, by decide⟩)⟩

/-- C4: for every buffer, either flag value, and each of the four timing
descriptors (offsets `54 + 18*i`, `i < 4`): the patched descriptor's
little-endian 16-bit clock is at most 16000; if the input clock was
already at most 16000 the two clock bytes are unchanged; if it exceeded
16000 they are overwritten with exactly 16000 little-endian
(`0x80`, `0x3E`). -/
theorem claim_C4_pixel_clock_cap (e : Nat → Nat) (d : Bool) (i : Nat) (hi : i < 4) :
    pixel_clock (_filter_edid e d) i ≤ 16000 ∧
    (pixel_clock e i ≤ 16000 →
      _filter_edid e d (54 + 18 * i) = e (54 + 18 * i) ∧
      _filter_edid e d (55 + 18 * i) = e (55 + 18 * i)) ∧
    (16000 < pixel_clock e i →
      _filter_edid e d (54 + 18 * i) = 0x80 ∧
      _filter_edid e d (55 + 18 * i) = 0x3E) :=
  ⟨pixel_clock_filter_le e d i hi,
   (filter_descriptor e d i hi).1,
   (filter_descriptor e d i hi).2⟩

/-- A buffer whose first descriptor clock is 65535 (`0xFF 0xFF`) and
whose other descriptor clocks are 10000 (`0x10 0x27`), used as the C4
witness input. -/
def c4_buf : Nat → Nat := fun k =>
  if k = 54 then 0xFF else if k = 55 then 0xFF
  else if k = 72 then 0x10 else if k = 73 then 0x27 else 0

set_option maxRecDepth 8000 in
/-- Witness for C4 at `c4_buf`: descriptor 0 (clock 65535) is capped to
`0x80 0x3E`, descriptor 1 (clock 10000) is left unchanged. -/
theorem claim_C4_pixel_clock_cap_witness :
    (16000 < pixel_clock c4_buf 0 ∧
      _filter_edid c4_buf true (54 + 18 * 0) = 0x80 ∧
      _filter_edid c4_buf true (55 + 18 * 0) = 0x3E) ∧
    (pixel_clock c4_buf 1 ≤ 16000 ∧
      _filter_edid c4_buf true (54 + 18 * 1) = c4_buf (54 + 18 * 1) ∧
      _filter_edid c4_buf true (55 + 18 * 1) = c4_buf (55 + 18 * 1)) :=
  ⟨⟨by decide, (claim_C4_pixel_clock_cap c4_buf true 0 (by decide)).2.2 (by decide)⟩,
   ⟨by decide, (claim_C4_pixel_clock_cap c4_buf true 1 (by decide)).2.1 (by decide)⟩⟩

/-- C8: the EDID patch is idempotent: for every buffer and either flag
value, applying `_filter_edid` a second time with the same flag changes
no byte. -/
theorem claim_C8_patch_idempotent (e : Nat → Nat) (d : Bool) :
    _filter_edid (_filter_edid e d) d = _filter_edid e d :=
  filter_edid_idem e d

/-- C9 (code bug): the claimed round trip
`igvt_translate_i915_port (igvt_translate_pgt_port p) = p` fails at
`PORT_B`: the switch in `igvt_translate_pgt_port` returns the literal
`"card-HDMI-A-1"` — missing the `0` of the `card0-` prefix used by every
other case and expected by `igvt_translate_i915_port` — so the round
trip yields the illegal sentinel instead of `PORT_B`.  The round trip
does hold for the other four valid ports. -/
theorem claim_C9_roundtrip_portB_broken :
    igvt_translate_pgt_port PORT_B = "card-HDMI-A-1" ∧
    igvt_translate_i915_port (igvt_translate_pgt_port PORT_B) = PORT_ILLEGAL ∧
    PORT_ILLEGAL ≠ PORT_B ∧
    igvt_translate_i915_port (igvt_translate_pgt_port PORT_EDP) = PORT_EDP ∧
    igvt_translate_i915_port (igvt_translate_pgt_port PORT_C) = PORT_C ∧
    igvt_translate_i915_port (igvt_translate_pgt_port PORT_D) = PORT_D ∧
    igvt_translate_i915_port (igvt_translate_pgt_port PORT_VGA) = PORT_VGA := by
  refine ⟨by decide, by decide, by decide, by decide, by decide, by decide, by decide⟩

/-- C10: the patch writes only bytes 20, 24, the eight descriptor clock
bytes 54, 55, 72, 73, 90, 91, 108, 109, and the checksum byte 127; every
byte at any other offset (including all offsets at or beyond 128) is
unchanged. -/
theorem claim_C10_write_footprint (e : Nat → Nat) (d : Bool) (k : Nat)
    (h : k ∉ ([20, 24, 54, 55, 72, 73, 90, 91, 108, 109, 127] : List Nat)) :
    _filter_edid e d k = e k := by
  simp only [List.mem_cons, List.not_mem_nil, or_false, not_or] at h
  obtain ⟨h20, h24, h54, h55, h72, h73, h90, h91, h108, h109, h127⟩ := h
  unfold _filter_edid
  rw [cap_clock_apply_ne _ 3 _ (by omega) (by omega) (by omega),
    cap_clock_apply_ne _ 2 _ (by omega) (by omega) (by omega),
    cap_clock_apply_ne _ 1 _ (by omega) (by omega) (by omega),
    cap_clock_apply_ne _ 0 _ (by omega) (by omega) (by omega),
    edid_dpms_apply_ne _ _ (by omega) (by omega),
    edid_reconcile_apply_ne _ _ _ (by omega) (by omega) (by omega)]

set_option maxRecDepth 8000 in
/-- Witness for C10 at offset 130 of `c4_buf` (a byte past the 128-byte
block, left unchanged by the patch). -/
theorem claim_C10_write_footprint_witness :
    (130 ∉ ([20, 24, 54, 55, 72, 73, 90, 91, 108, 109, 127] : List Nat)) ∧
    _filter_edid c4_buf true 130 = c4_buf 130 :=
  ⟨by decide, claim_C10_write_footprint c4_buf true 130 (by decide)⟩

/-! ## Validation lemmas for the protocol layer -/

theorem enabled_eq_false (env : Env) (domid : Nat)
    (h : domid = 0 ∨ env.vm_exists domid = false) :
    igvt_enabled_p env domid = false := by
  unfold igvt_enabled_p
  rcases h with h | h
  · simp [h]
  · by_cases h0 : domid = 0 <;> simp [h0, h]

theorem enabled_iff (env : Env) (domid : Nat) :
    igvt_enabled_p env domid = true ↔ (¬ domid = 0 ∧ env.vm_exists domid = true) := by
  unfold igvt_enabled_p
  by_cases h0 : domid = 0 <;> simp [h0]

/-- C3: whenever the domain is 0, the domain's VM directory does not
exist, or (for `igvt_plug_display`) either port ordinal is invalid —
(for `igvt_unplug_display`, which takes no physical port, the virtual
port ordinal) — the operation returns `-EINVAL`, performs no
control-channel write, and leaves the caller's EDID buffer unmodified. -/
theorem claim_C3_invalid_args_reject (env : Env) (domid : Nat)
    (vgt_port pgt_port : Int) (edid : Nat → Nat) (edid_size : Nat) :
    ((domid = 0 ∨ env.vm_exists domid = false ∨
        igvt_is_valid_port_p vgt_port = false ∨
        igvt_is_valid_port_p pgt_port = false) →
      igvt_plug_display env domid vgt_port edid edid_size pgt_port =
        (-EINVAL, edid, [])) ∧
    ((domid = 0 ∨ env.vm_exists domid = false ∨
        igvt_is_valid_port_p vgt_port = false) →
      igvt_unplug_display env domid vgt_port = (-EINVAL, [])) := by
  constructor
  · intro h
    unfold igvt_plug_display
    cases h1 : igvt_enabled_p env domid with
    | false => simp [h1]
    | true =>
      have hvv : igvt_is_valid_port_p vgt_port = false ∨
          igvt_is_valid_port_p pgt_port = false := by
        rcases h with h | h | h | h
        · rw [enabled_eq_false env domid (Or.inl h)] at h1
          exact absurd h1 (by simp)
        · rw [enabled_eq_false env domid (Or.inr h)] at h1
          exact absurd h1 (by simp)
        · exact Or.inl h
        · exact Or.inr h
      rcases hvv with h2 | h2
      · simp [h2]
      · cases h3 : igvt_is_valid_port_p vgt_port <;> simp [h2, h3]
  · intro h
    unfold igvt_unplug_display
    cases h1 : igvt_enabled_p env domid with
    | false => simp [h1]
    | true =>
      have h2 : igvt_is_valid_port_p vgt_port = false := by
        rcases h with h | h | h
        · rw [enabled_eq_false env domid (Or.inl h)] at h1
          exact absurd h1 (by simp)
        · rw [enabled_eq_false env domid (Or.inr h)] at h1
          exact absurd h1 (by simp)
        · exact h
      simp [h2]

/-- Witness for C3: domain 0 is rejected by both operations with no
writes and an untouched buffer. -/
theorem claim_C3_invalid_args_reject_witness :
    igvt_plug_display ⟨fun _ => true, fun _ _ _ => true, fun _ _ => true,
        fun _ _ => "connected"⟩ 0 PORT_EDP (fun _ => 0) 128 PORT_B =
      (-EINVAL, (fun _ => 0), []) ∧
    igvt_unplug_display ⟨fun _ => true, fun _ _ _ => true, fun _ _ => true,
        fun _ _ => "connected"⟩ 0 PORT_EDP = (-EINVAL, []) :=
  ⟨(claim_C3_invalid_args_reject _ 0 PORT_EDP PORT_B (fun _ => 0) 128).1 (Or.inl rfl),
   (claim_C3_invalid_args_reject _ 0 PORT_EDP PORT_B (fun _ => 0) 128).2 (Or.inl rfl)⟩

/-- The claim's "whitespace-trimmed textual value" of an attribute,
rendered from the spec's words: the content with leading and trailing
whitespace removed. -/
def spec_trimmed (s : String) : String :=
  String.mk
    ((s.toList.dropWhile Char.isWhitespace).reverse.dropWhile Char.isWhitespace).reverse

/-- Environment for the C7 counterexample: the `connection` attribute
reads back `"connected junk"`. -/
def c7_env : Env :=
  ⟨fun _ => true, fun _ _ _ => true, fun _ _ => true, fun _ _ => "connected junk"⟩

/-- C7 counterexample: with `connection` content `"connected junk"` the
code returns true — `fscanf(f, "%s", c)` reads only the first
whitespace-delimited token, `"connected"` — although the
whitespace-trimmed textual value `"connected junk"` does not equal
`"connected"`, so "true iff the trimmed value equals connected" fails. -/
theorem claim_C7_counterexample :
    igvt_port_plugged_p c7_env 1 PORT_EDP = true ∧
    spec_trimmed (c7_env.conn_content 1 PORT_EDP) ≠ "connected" := by
  constructor
  · decide
  · decide

/-- C7 (amended): `igvt_port_plugged_p` never returns an error: it
returns false on invalid domain (including domain 0), invalid port, or
any failure to open or read the `connection` attribute, and returns true
if and only if the FIRST WHITESPACE-DELIMITED TOKEN of the attribute's
content (the claim said: the whitespace-trimmed textual value, but the
code scans a single `%s` token) equals `"connected"`. -/
theorem claim_C7_plugged_p_token (env : Env) (domid : Nat) (vgt_port : Int) :
    igvt_port_plugged_p env domid vgt_port = true ↔
      (igvt_enabled_p env domid = true ∧
       igvt_is_valid_port_p vgt_port = true ∧
       env.can_read_conn domid vgt_port = true ∧
       fscanf_s (env.conn_content domid vgt_port) = some "connected") := by
  unfold igvt_port_plugged_p
  cases h1 : igvt_enabled_p env domid with
  | false => simp [h1]
  | true =>
    obtain ⟨hd, hv⟩ := (enabled_iff env domid).1 h1
    cases h2 : igvt_is_valid_port_p vgt_port with
    | false => simp [h2]
    | true =>
      cases h3 : env.can_read_conn domid vgt_port with
      | false => simp [hd, hv, h3]
      | true =>
        simp only [hd, hv, h3, Bool.not_true, Bool.not_false, if_false, if_true,
          Bool.false_eq_true, if_neg, true_and, and_true]
        cases hf : fscanf_s (env.conn_content domid vgt_port) with
        | none => simp
        | some c => simp [beq_iff_eq]

/-! ## Trace lemmas for the attach protocol -/

theorem unplug_trace_mem (env : Env) (domid : Nat) (vgt_port : Int) (ev : WEvent)
    (h : ev ∈ (igvt_unplug_display env domid vgt_port).2) :
    ev = ⟨domid, vgt_port, "connection", Payload.text "disconnect\n"⟩ := by
  unfold igvt_unplug_display at h
  split at h
  · simp at h
  · split at h
    · simp at h
    · split at h
      · simp at h
      · simpa using h

/-- C5: every write that any run of `igvt_plug_display` issues to the
`edid` attribute carries at most 128 bytes; it carries exactly the first
`min(edid_size, 128)` bytes of the patched buffer, hence exactly the
first 128 bytes of the patched buffer whenever the caller-supplied
`edid_size` is 128 or more. -/
theorem claim_C5_edid_write_bounded (env : Env) (domid : Nat)
    (vgt_port pgt_port : Int) (edid : Nat → Nat) (edid_size : Nat) (ev : WEvent)
    (hev : ev ∈ (igvt_plug_display env domid vgt_port edid edid_size pgt_port).2.2)
    (hattr : ev.attr = "edid") :
    ∃ l, ev.payload = Payload.bytes l ∧ l.length ≤ 128 ∧
      (128 ≤ edid_size →
        l = (List.range 128).map (_filter_edid edid (is_port_digital vgt_port))) := by
  have hsz : (if edid_size > 128 then 128 else edid_size) ≤ 128 := by
    split <;> omega
  have hsz2 : 128 ≤ edid_size → (if edid_size > 128 then 128 else edid_size) = 128 := by
    intro hle
    split <;> omega
  unfold igvt_plug_display at hev
  cases h1 : igvt_enabled_p env domid with
  | false => simp [h1] at hev
  | true =>
    cases h2 : igvt_is_valid_port_p vgt_port with
    | false => simp [h1, h2] at hev
    | true =>
      cases h3 : igvt_is_valid_port_p pgt_port with
      | false => simp [h1, h2, h3] at hev
      | true =>
        have htr0 : ∀ e, e ∈ (if igvt_port_plugged_p env domid vgt_port then
            (igvt_unplug_display env domid vgt_port).2 else ([] : List WEvent)) →
            e = ⟨domid, vgt_port, "connection", Payload.text "disconnect\n"⟩ := by
          intro e he
          split at he
          · exact unplug_trace_mem env domid vgt_port e he
          · simp at he
        cases h4 : env.can_write domid vgt_port "port_override" with
        | false =>
          simp only [h1, h2, h3, h4, Bool.not_true, Bool.not_false, if_true, if_false,
            Bool.false_eq_true, if_neg, Bool.true_eq_false] at hev
          rw [htr0 ev hev] at hattr
          simp at hattr
        | true =>
          cases h5 : env.can_write domid vgt_port "edid" with
          | false =>
            simp only [h1, h2, h3, h4, h5, Bool.not_true, Bool.not_false, if_true,
              if_false, Bool.false_eq_true, if_neg, Bool.true_eq_false,
              List.mem_append, List.mem_singleton] at hev
            rcases hev with hev | hev
            · rw [htr0 ev hev] at hattr
              simp at hattr
            · rw [hev] at hattr
              simp at hattr
          | true =>
            cases h6 : env.can_write domid vgt_port "connection" with
            | false =>
              simp only [h1, h2, h3, h4, h5, h6, Bool.not_true, Bool.not_false,
                if_true, if_false, Bool.false_eq_true, if_neg, Bool.true_eq_false,
                List.mem_append, List.mem_singleton] at hev
              rcases hev with (hev | hev) | hev
              · rw [htr0 ev hev] at hattr
                simp at hattr
              · rw [hev] at hattr
                simp at hattr
              · refine ⟨_, by rw [hev], ?_, ?_⟩
                · simp [hsz]
                · intro hle
                  rw [hsz2 hle]
            | true =>
              simp only [h1, h2, h3, h4, h5, h6, Bool.not_true, Bool.not_false,
                if_true, if_false, Bool.false_eq_true, if_neg, Bool.true_eq_false,
                List.mem_append, List.mem_singleton] at hev
              rcases hev with ((hev | hev) | hev) | hev
              · rw [htr0 ev hev] at hattr
                simp at hattr
              · rw [hev] at hattr
                simp at hattr
              · refine ⟨_, by rw [hev], ?_, ?_⟩
                · simp [hsz]
                · intro hle
                  rw [hsz2 hle]
              · rw [hev] at hattr
                simp at hattr

/-- C6: for a valid domain and valid ports, if the virtual port is
currently plugged (per `igvt_port_plugged_p`), then whenever the plug's
write trace contains the final `connect` write to the `connection`
attribute, the trace begins with a `disconnect` write to that attribute
(issued by the implicit unplug), which therefore precedes the `connect`;
if the port is not currently plugged, the trace contains no `disconnect`
write at all. -/
theorem claim_C6_replug_disconnect_first (env : Env) (domid : Nat)
    (vgt_port pgt_port : Int) (edid : Nat → Nat) (edid_size : Nat)
    (hdom : igvt_enabled_p env domid = true)
    (hv : igvt_is_valid_port_p vgt_port = true)
    (hp : igvt_is_valid_port_p pgt_port = true) :
    (igvt_port_plugged_p env domid vgt_port = true →
      (⟨domid, vgt_port, "connection", Payload.text "connect\n"⟩ : WEvent) ∈
          (igvt_plug_display env domid vgt_port edid edid_size pgt_port).2.2 →
      ∃ rest, (igvt_plug_display env domid vgt_port edid edid_size pgt_port).2.2 =
          ⟨domid, vgt_port, "connection", Payload.text "disconnect\n"⟩ :: rest ∧
        (⟨domid, vgt_port, "connection", Payload.text "connect\n"⟩ : WEvent) ∈ rest) ∧
    (igvt_port_plugged_p env domid vgt_port = false →
      (⟨domid, vgt_port, "connection", Payload.text "disconnect\n"⟩ : WEvent) ∉
        (igvt_plug_display env domid vgt_port edid edid_size pgt_port).2.2) := by
  constructor
  · intro hplug hconn
    unfold igvt_plug_display at hconn ⊢
    unfold igvt_unplug_display at hconn ⊢
    cases h6 : env.can_write domid vgt_port "connection" with
    | false =>
      exfalso
      cases h4 : env.can_write domid vgt_port "port_override" with
      | false => simp [hdom, hv, hp, hplug, h4, h6] at hconn
      | true =>
        cases h5 : env.can_write domid vgt_port "edid" with
        | false => simp [hdom, hv, hp, hplug, h4, h5, h6] at hconn
        | true => simp [hdom, hv, hp, hplug, h4, h5, h6] at hconn
    | true =>
      cases h4 : env.can_write domid vgt_port "port_override" with
      | false =>
        exfalso
        simp [hdom, hv, hp, hplug, h4, h6] at hconn
      | true =>
        cases h5 : env.can_write domid vgt_port "edid" with
        | false =>
          exfalso
          simp [hdom, hv, hp, hplug, h4, h5, h6] at hconn
        | true =>
          simp only [hdom, hv, hp, hplug, h4, h5, h6, Bool.not_true, Bool.not_false,
            if_true, if_false, Bool.false_eq_true, if_neg, Bool.true_eq_false]
          refine ⟨_, rfl, ?_⟩
          simp
  · intro hplug
    unfold igvt_plug_display
    cases h4 : env.can_write domid vgt_port "port_override" with
    | false => simp [hdom, hv, hp, hplug, h4]
    | true =>
      cases h5 : env.can_write domid vgt_port "edid" with
      | false => simp [hdom, hv, hp, hplug, h4, h5]
      | true =>
        cases h6 : env.can_write domid vgt_port "connection" with
        | false => simp [hdom, hv, hp, hplug, h4, h5, h6]
        | true => simp [hdom, hv, hp, hplug, h4, h5, h6]

/-- A fully open environment whose `connection` attribute reads back
`"connected"` (ports are plugged). -/
def env_plugged : Env :=
  ⟨fun _ => true, fun _ _ _ => true, fun _ _ => true, fun _ _ => "connected"⟩

/-- A fully open environment whose `connection` attribute reads back
`"disconnected"` (ports are unplugged). -/
def env_unplugged : Env :=
  ⟨fun _ => true, fun _ _ _ => true, fun _ _ => true, fun _ _ => "disconnected"⟩

set_option maxRecDepth 100000 in
/-- Witness for C5: the `edid` write of a concrete successful plug with
`edid_size = 256` carries exactly the first 128 patched bytes. -/
theorem claim_C5_edid_write_bounded_witness :
    (⟨1, PORT_EDP, "edid", Payload.bytes ((List.range 128).map
        (_filter_edid (fun _ => 0) (is_port_digital PORT_EDP)))⟩ : WEvent) ∈
      (igvt_plug_display env_plugged 1 PORT_EDP (fun _ => 0) 256 PORT_B).2.2 ∧
    ∃ l, (⟨1, PORT_EDP, "edid", Payload.bytes ((List.range 128).map
        (_filter_edid (fun _ => 0) (is_port_digital PORT_EDP)))⟩ : WEvent).payload =
        Payload.bytes l ∧ l.length ≤ 128 ∧
      (128 ≤ 256 →
        l = (List.range 128).map (_filter_edid (fun _ => 0) (is_port_digital PORT_EDP))) := by
  have hmem : (⟨1, PORT_EDP, "edid", Payload.bytes ((List.range 128).map
      (_filter_edid (fun _ => 0) (is_port_digital PORT_EDP)))⟩ : WEvent) ∈
      (igvt_plug_display env_plugged 1 PORT_EDP (fun _ => 0) 256 PORT_B).2.2 := by
    decide
  exact ⟨hmem,
    claim_C5_edid_write_bounded env_plugged 1 PORT_EDP PORT_B (fun _ => 0) 256 _ hmem rfl⟩

set_option maxRecDepth 100000 in
/-- Witness for C6: on a plugged port the concrete plug trace starts
with the `disconnect` write and contains the `connect` write later; on
an unplugged port the trace contains no `disconnect` write. -/
theorem claim_C6_replug_disconnect_first_witness :
    (∃ rest, (igvt_plug_display env_plugged 1 PORT_EDP (fun _ => 0) 128 PORT_B).2.2 =
        (⟨1, PORT_EDP, "connection", Payload.text "disconnect\n"⟩ : WEvent) :: rest ∧
      (⟨1, PORT_EDP, "connection", Payload.text "connect\n"⟩ : WEvent) ∈ rest) ∧
    (⟨1, PORT_EDP, "connection", Payload.text "disconnect\n"⟩ : WEvent) ∉
      (igvt_plug_display env_unplugged 1 PORT_EDP (fun _ => 0) 128 PORT_B).2.2 :=
  ⟨(claim_C6_replug_disconnect_first env_plugged 1 PORT_EDP PORT_B (fun _ => 0) 128
      (by decide) (by decide) (by decide)).1 (by decide) (by decide),
   (claim_C6_replug_disconnect_first env_unplugged 1 PORT_EDP PORT_B (fun _ => 0) 128
      (by decide) (by decide) (by decide)).2 (by decide)⟩

end Igvt
